import Mathlib

/-!
Verification development for the QuMail layered encryption pipeline.

The repository's Python core (crypto_services.py, qkd_service.py,
pqc_key_server.py, email_controller.py) is shallowly embedded below.
Byte strings are `List Nat`; the external cryptographic library calls
(SHA-256, AES-GCM, PBKDF2, Kyber-512) are abstracted as function
parameters gathered in a `Primitives` bundle, while all repository-level
logic (orchestration, field handling, XOR masking, key stores) is
modelled concretely.  Randomness drawn via `os.urandom` is passed in
explicitly through an `EncRandom` record.
-/

namespace QuMail

/-- Byte strings: `bytes` values from the Python source. -/
abbrev Bytes := List Nat

/-- `bytes(x ^ y for x, y in zip(a, b))`: byte-wise XOR, truncating to the
shorter operand exactly as Python's `zip` does. -/
def zipXor (a b : Bytes) : Bytes := (a.zip b).map (fun p => p.1 ^^^ p.2)

/-- Python `a.ljust(n, b'\0')`: right-pad `a` with zero bytes up to length
`n` (a no-op when `a` is already at least that long). -/
def ljust (a : Bytes) (n : Nat) : Bytes := a ++ List.replicate (n - a.length) 0

/-- Python `s.encode('utf-8')` modelled as the list of character codes. -/
def strBytes (s : String) : Bytes := s.toList.map Char.toNat

/-- Inverse used by toy deserializers in concrete evaluations. -/
def strOfBytes (b : Bytes) : String := String.mk (b.map Char.ofNat)

@[simp] theorem zipXor_nil_left (b : Bytes) : zipXor [] b = [] := rfl

@[simp] theorem zipXor_nil_right (a : Bytes) : zipXor a [] = [] := by
  cases a <;> rfl

@[simp] theorem zipXor_cons (x y : Nat) (a b : Bytes) :
    zipXor (x :: a) (y :: b) = (x ^^^ y) :: zipXor a b := rfl

theorem zipXor_length (a b : Bytes) :
    (zipXor a b).length = min a.length b.length := by
  simp [zipXor]

/-- XOR masking twice with the same key recovers the masked operand, up to
the truncation `zip` imposes. -/
theorem zipXor_zipXor (a b : Bytes) :
    zipXor (zipXor a b) b = a.take b.length := by
  induction a generalizing b with
  | nil => simp
  | cons x xs ih =>
    cases b with
    | nil => simp
    | cons y ys =>
      simp [ih, Nat.xor_assoc]

theorem ljust_of_length_eq (a : Bytes) : ljust a a.length = a := by
  simp [ljust]

/-! ## `MockQKDClient.get_deterministic_key` (qkd_service.py, lines 269-288)

The Python loop

    key = b''
    while len(key) < key_length:
        next_block = SHA256(seed); key += next_block; seed = next_block
    return key[:key_length]

is modelled with explicit fuel; `key_length` rounds of the loop body are
enough, since with SHA-256 every block is non-empty, so the model agrees
with the source whenever the source terminates. -/

/-- The expansion loop of `get_deterministic_key`, fuelled. -/
def expandKey (H : Bytes → Bytes) : Nat → Bytes → Bytes → Nat → Bytes
  | 0, _, key, _ => key
  | fuel + 1, seed, key, key_length =>
    if key.length < key_length then
      expandKey H fuel (H seed) (key ++ H seed) key_length
    else key

/-- `MockQKDClient.get_deterministic_key(key_id, key_length)`:
seed = H(key_id); expand by hash chaining; truncate. `H` abstracts
SHA-256. -/
def get_deterministic_key (H : Bytes → Bytes) (key_id : String) (key_length : Nat) : Bytes :=
  (expandKey H key_length (H (strBytes key_id)) [] key_length).take key_length

/-- `k` successive hash-chain blocks starting from `seed`:
`H seed, H (H seed), ...`, concatenated. -/
def joinBlocks (H : Bytes → Bytes) : Bytes → Nat → Bytes
  | _, 0 => []
  | seed, k + 1 => H seed ++ joinBlocks H (H seed) k

/-- The hash-chain construction as the specification words it: the seed is
the hash of the identifier, each successive block is the hash of the
previous block, and the concatenation of the blocks is truncated to `n`
bytes (`n` blocks always suffice). -/
def specHashChain (H : Bytes → Bytes) (key_id : String) (n : Nat) : Bytes :=
  (((List.range n).map (fun i => H^[i] (H (H (strBytes key_id))))).flatten).take n

theorem expandKey_take (H : Bytes → Bytes) :
    ∀ (fuel : Nat) (seed acc : Bytes) (t : Nat),
      (expandKey H fuel seed acc t).take t = (acc ++ joinBlocks H seed fuel).take t := by
  intro fuel
  induction fuel with
  | zero => intro seed acc t; simp [expandKey, joinBlocks]
  | succ n ih =>
    intro seed acc t
    by_cases h : acc.length < t
    · rw [expandKey, if_pos h, ih, joinBlocks, ← List.append_assoc]
    · rw [expandKey, if_neg h]
      rw [List.take_append_of_le_length (Nat.le_of_not_lt h)]

theorem joinBlocks_eq_range (H : Bytes → Bytes) :
    ∀ (k : Nat) (s : Bytes),
      joinBlocks H s k = ((List.range k).map (fun i => H^[i] (H s))).flatten := by
  intro k
  induction k with
  | zero => intro s; simp [joinBlocks]
  | succ n ih =>
    intro s
    rw [joinBlocks, List.range_succ_eq_map, List.map_cons, List.flatten_cons, List.map_map]
    have hfun : ((fun i => H^[i] (H s)) ∘ Nat.succ) = (fun i => H^[i] (H (H s))) := by
      funext i
      simp [Function.iterate_succ_apply]
    rw [hfun, ← ih (H s)]
    simp

theorem get_deterministic_key_eq_joinBlocks (H : Bytes → Bytes) (key_id : String) (n : Nat) :
    get_deterministic_key H key_id n = (joinBlocks H (H (strBytes key_id)) n).take n := by
  rw [get_deterministic_key, expandKey_take]
  simp

theorem joinBlocks_length_ge (H : Bytes → Bytes) (hH : ∀ s, H s ≠ []) :
    ∀ (k : Nat) (s : Bytes), k ≤ (joinBlocks H s k).length := by
  intro k
  induction k with
  | zero => intro s; simp
  | succ n ih =>
    intro s
    rw [joinBlocks, List.length_append]
    have h1 : 1 ≤ (H s).length := by
      cases hhs : H s with
      | nil => exact absurd hhs (hH s)
      | cons a l => simp
    have := ih (H s)
    omega

theorem joinBlocks_mono (H : Bytes → Bytes) :
    ∀ (n m : Nat) (s : Bytes), m ≤ n → joinBlocks H s m <+: joinBlocks H s n := by
  intro n
  induction n with
  | zero =>
    intro m s hm
    rw [Nat.le_zero.mp hm]
  | succ k ih =>
    intro m s hm
    cases m with
    | zero => exact List.nil_prefix
    | succ j =>
      obtain ⟨t, ht⟩ := ih j (H s) (Nat.succ_le_succ_iff.mp hm)
      exact ⟨t, by rw [joinBlocks, joinBlocks, List.append_assoc, ht]⟩

/-! ## PQC key server symmetric-key store (pqc_key_server.py, lines 244-261)

The `symmetric_keys` SQLite table is modelled as an association list of
`(key_id, key_hex)` rows.  `get_symmetric_key_by_id` SELECTs the row,
returns 404 (modelled as `none`) when absent, and otherwise DELETEs the
row and returns the key. -/

abbrev KeyStore := List (String × String)

/-- `SELECT key_hex FROM symmetric_keys WHERE key_id = ?` on the row list. -/
def dbSelect (store : KeyStore) (key_id : String) : Option String :=
  match store with
  | [] => none
  | (k, v) :: rest => if k = key_id then some v else dbSelect rest key_id

/-- `DELETE FROM symmetric_keys WHERE key_id = ?` on the row list. -/
def dbDelete (store : KeyStore) (key_id : String) : KeyStore :=
  match store with
  | [] => []
  | (k, v) :: rest => if k = key_id then dbDelete rest key_id else (k, v) :: dbDelete rest key_id

/-- `GET /get-symmetric-key-by-id/{key_id}`: fetch then delete.  Returns
the key (or `none` for the 404 case) together with the updated store. -/
def get_symmetric_key_by_id (store : KeyStore) (key_id : String) :
    Option String × KeyStore :=
  match dbSelect store key_id with
  | none => (none, store)
  | some key_hex => (some key_hex, dbDelete store key_id)

theorem dbSelect_dbDelete (store : KeyStore) (key_id : String) :
    dbSelect (dbDelete store key_id) key_id = none := by
  induction store with
  | nil => rfl
  | cons hd tl ih =>
    obtain ⟨k, v⟩ := hd
    by_cases h : k = key_id
    · simp [dbDelete, h, ih]
    · simp [dbDelete, dbSelect, h, ih]

/-! ## Data model: payloads, envelopes, primitives

`payload_dict` (crypto_services.py lines 100-103) carries the UTF-8 body
and the attachments; base64 of attachment contents in the dict and the
matching decode in `decrypt` cancel, so contents are kept as bytes.  The
JSON envelope emitted by `encrypt` and parsed by `decrypt` is modelled as
a record with `Option` fields: `none` is an absent JSON key. -/

structure Attachment where
  filename : String
  content : Bytes
deriving DecidableEq

structure Payload where
  body : String
  attachments : List Attachment
deriving DecidableEq

/-- The `payload` / `aes_payload` JSON sub-object of an envelope. -/
structure EncPayload where
  ciphertext : Option Bytes := none
  nonce : Option Bytes := none
  auth_tag : Option Bytes := none
  salt : Option Bytes := none
deriving DecidableEq

/-- The parsed top-level envelope JSON (all base64 fields decoded). -/
structure Envelope where
  security_level : Nat
  plaintext_payload : Option Payload := none
  kem_ciphertext : Option Bytes := none
  encrypted_symmetric_key : Option Bytes := none
  aes_payload : Option EncPayload := none
  encryption_method : Option String := none
  key_id : Option String := none
  payload : Option EncPayload := none
deriving DecidableEq

/-- External cryptographic library calls abstracted as functions.
`hash` is SHA-256; `aeadEnc`/`aeadDec` are AES-256-GCM (key, nonce,
plaintext to ciphertext and tag); `kemEnc`/`kemDec` are Kyber-512
encapsulation (with its randomness folded into the function) and
decapsulation; `kdf` is PBKDF2-HMAC-SHA256 with 100000 iterations and
32-byte output; `ser`/`deser` are `json.dumps`/`json.loads` on the
payload dict. -/
structure Primitives where
  hash : Bytes → Bytes
  aeadEnc : Bytes → Bytes → Bytes → Bytes × Bytes
  aeadDec : Bytes → Bytes → Bytes → Bytes → Option Bytes
  kemEnc : Bytes → Bytes × Bytes
  kemDec : Bytes → Bytes → Bytes
  kdf : Bytes → Bytes → Bytes
  ser : Payload → Bytes
  deser : Bytes → Option Payload

/-- The values `os.urandom` produces during one `encrypt` call, passed in
explicitly: the level-3 AES key (32 bytes), the GCM nonce (12 bytes), the
PBKDF2 salt (16 bytes), and the fresh QKD key identifier
`qkd_<os.urandom(16).hex()>`. -/
structure EncRandom where
  aes_key : Bytes := []
  nonce : Bytes := []
  salt : Bytes := []
  qkd_key_id : String := ""

/-- The keyword arguments of `CryptoService.encrypt`. -/
structure EncArgs where
  security_level : Nat
  encryption_method : Option String := none
  recipient_public_key : Option Bytes := none
  recipient_email : Option String := none
  key_hex : Option Bytes := none
  key_id : Option String := none

/-- The keyword arguments of `CryptoService.decrypt`. -/
structure DecArgs where
  private_key : Option Bytes := none
  key_hex : Option Bytes := none

inductive EncError where
  | noRecipientEmail
  | otpKeyShort
  | kwargMissing
  | noneReturn
deriving DecidableEq

inductive DecError where
  | parseError
  | tamper
  | missingPrivateKey
  | kwargMissing
  | keyNotFound
  | otpKeyShort
  | deserializeError
deriving DecidableEq

/-- The QKD simulator state visible to `get_quantum_key_by_id`: for each
key identifier, the `key_length_bytes` recorded in the local cache or the
Firebase metadata record (`none` when the id is unknown everywhere). -/
abbrev QkdStore := String → Option Nat

/-- `QKDService.get_quantum_key` (qkd_service.py lines 70-116): generate
a fresh id, derive the key deterministically, cache the metadata.
Returns `((key_id, key bytes), updated store)`. -/
def get_quantum_key (H : Bytes → Bytes) (store : QkdStore) (key_id : String) (len : Nat) :
    (String × Bytes) × QkdStore :=
  ((key_id, get_deterministic_key H key_id len),
   fun k => if k = key_id then some len else store k)

/-- `QKDService.get_quantum_key_by_id` (qkd_service.py lines 118-149):
from the cached or fetched metadata, reconstruct the key bytes by the
same deterministic derivation (the cached copy was itself produced by
`get_deterministic_key`, so both paths agree). -/
def get_quantum_key_by_id (H : Bytes → Bytes) (store : QkdStore) (key_id : String) :
    Option Bytes :=
  (store key_id).map (fun len => get_deterministic_key H key_id len)

/-- What `CryptoService.encrypt` emits besides the mutated QKD cache: the
envelope, plus the `key_length_bytes` it passed to `get_quantum_key` when
the qkd branch ran (recorded for the key-request claims). -/
structure EncOut where
  env : Envelope
  qkd_request : Option Nat := none
deriving DecidableEq

/-- `CryptoService.encrypt` (crypto_services.py lines 98-208).  The
Python function returns a JSON string or raises; falling off the end for
a level outside 1-4 returns `None`, modelled as `EncError.noneReturn`.
`KeyError` on a missing kwarg is `EncError.kwargMissing`.  The QKD cache
mutation performed inside `get_quantum_key` is threaded through as the
first component of the result. -/
def CryptoService.encrypt (P : Primitives) (store : QkdStore) (rand : EncRandom)
    (body : String) (attachments : List Attachment) (args : EncArgs) :
    QkdStore × Except EncError EncOut :=
  let payload_dict : Payload := { body := body, attachments := attachments }
  if args.security_level = 4 then
    (store, .ok { env := { security_level := 4, plaintext_payload := some payload_dict } })
  else
    let pt := P.ser payload_dict
    if args.security_level = 3 then
      match args.recipient_public_key with
      | none => (store, .error .kwargMissing)
      | some pk =>
        let ct_tag := P.aeadEnc rand.aes_key rand.nonce pt
        let ks := P.kemEnc pk
        let wrapped := zipXor (ljust rand.aes_key ks.2.length) ks.2
        (store, .ok { env :=
          { security_level := 3,
            kem_ciphertext := some ks.1,
            encrypted_symmetric_key := some wrapped,
            aes_payload := some
              { ciphertext := some ct_tag.1,
                nonce := some rand.nonce,
                auth_tag := some ct_tag.2 } } })
    else if args.security_level = 1 ∨ args.security_level = 2 then
      if args.encryption_method.getD "pqc" = "qkd" then
        match args.recipient_email with
        | none => (store, .error .noRecipientEmail)
        | some _ =>
          let res := get_quantum_key P.hash store rand.qkd_key_id pt.length
          let quantum_key := res.1.2
          if args.security_level = 2 then
            let aes_key := P.kdf quantum_key rand.salt
            let ct_tag := P.aeadEnc aes_key rand.nonce pt
            (res.2, .ok
              { env :=
                { security_level := 2, encryption_method := some "qkd",
                  key_id := some res.1.1,
                  payload := some
                    { ciphertext := some ct_tag.1,
                      nonce := some rand.nonce,
                      auth_tag := some ct_tag.2,
                      salt := some rand.salt } },
                qkd_request := some pt.length })
          else
            (res.2,
              if quantum_key.length < pt.length then .error .otpKeyShort
              else .ok
                { env :=
                  { security_level := 1, encryption_method := some "qkd",
                    key_id := some res.1.1,
                    payload := some { ciphertext := some (zipXor pt quantum_key) } },
                  qkd_request := some pt.length })
      else
        match args.key_hex, args.key_id with
        | some key, some kid =>
          if args.security_level = 2 then
            let aes_key := key.take 32
            let ct_tag := P.aeadEnc aes_key rand.nonce pt
            (store, .ok
              { env :=
                { security_level := 2, encryption_method := some "pqc",
                  key_id := some kid,
                  payload := some
                    { ciphertext := some ct_tag.1,
                      nonce := some rand.nonce,
                      auth_tag := some ct_tag.2 } } })
          else
            (store,
              if key.length < pt.length then .error .otpKeyShort
              else .ok
                { env :=
                  { security_level := 1, encryption_method := some "pqc",
                    key_id := some kid,
                    payload := some { ciphertext := some (zipXor pt key) } } })
        | _, _ => (store, .error .kwargMissing)
    else (store, .error .noneReturn)

/-- `json.loads` of the recovered plaintext bytes at the end of
`decrypt`, with the attachment base64 decode folded in. -/
def deserFinish (P : Primitives) (b : Bytes) : Except DecError Payload :=
  match P.deser b with
  | none => .error .deserializeError
  | some p => .ok p

/-- `CryptoService.decrypt` (crypto_services.py lines 210-301).
Envelope field accesses `data[k]` raise `KeyError` on absence
(`DecError.parseError`); `data.get(k, default)` substitutes the default.
The level-4 default `{}` for a missing `plaintext_payload` is the empty
payload. -/
def CryptoService.decrypt (P : Primitives) (store : QkdStore) (data : Envelope)
    (args : DecArgs) : Except DecError Payload :=
  if data.security_level = 4 then
    .ok (data.plaintext_payload.getD { body := "", attachments := [] })
  else if data.security_level = 3 then
    match data.aes_payload with
    | none => .error .parseError
    | some ap =>
      match args.private_key with
      | none => .error .missingPrivateKey
      | some sk =>
        match data.kem_ciphertext, data.encrypted_symmetric_key with
        | some kct, some wrapped =>
          let ss := P.kemDec kct sk
          let aes_key := zipXor wrapped ss
          match ap.ciphertext, ap.nonce, ap.auth_tag with
          | some ct, some nonce, some tag =>
            match P.aeadDec aes_key nonce ct tag with
            | none => .error .tamper
            | some ptBytes => deserFinish P ptBytes
          | _, _, _ => .error .parseError
        | _, _ => .error .parseError
  else if data.security_level = 1 ∨ data.security_level = 2 then
    if data.encryption_method.getD "pqc" = "qkd" then
      match data.key_id with
      | none => .error .parseError
      | some kid =>
        match get_quantum_key_by_id P.hash store kid with
        | none => .error .keyNotFound
        | some quantum_key =>
          match data.payload with
          | none => .error .parseError
          | some pl =>
            if data.security_level = 2 then
              match pl.salt with
              | none => .error .parseError
              | some salt =>
                let aes_key := P.kdf quantum_key salt
                match pl.ciphertext, pl.nonce, pl.auth_tag with
                | some ct, some nonce, some tag =>
                  match P.aeadDec aes_key nonce ct tag with
                  | none => .error .tamper
                  | some ptBytes => deserFinish P ptBytes
                | _, _, _ => .error .parseError
            else
              match pl.ciphertext with
              | none => .error .parseError
              | some ct =>
                if quantum_key.length < ct.length then .error .otpKeyShort
                else deserFinish P (zipXor ct quantum_key)
    else
      match args.key_hex with
      | none => .error .kwargMissing
      | some key =>
        match data.payload with
        | none => .error .parseError
        | some pl =>
          if data.security_level = 2 then
            let aes_key := key.take 32
            match pl.ciphertext, pl.nonce, pl.auth_tag with
            | some ct, some nonce, some tag =>
              match P.aeadDec aes_key nonce ct tag with
              | none => .error .tamper
              | some ptBytes => deserFinish P ptBytes
            | _, _, _ => .error .parseError
          else
            match pl.ciphertext with
            | none => .error .parseError
            | some ct =>
              if key.length < ct.length then .error .otpKeyShort
              else deserFinish P (zipXor ct key)
  else deserFinish P []

/-- `EmailController._send_email_async` (email_controller.py lines
288-294): before calling `encrypt` with method pqc, the controller
serializes the payload dict to compute the length of the symmetric key
it requests from the PQC key server.  Line 291 evaluates
`base64.b64encode` inside the attachment comprehension, but
`email_controller.py` never imports `base64`, so with any non-empty
attachment list the comprehension raises `NameError` (modelled as
`none`) before a payload size is computed or any key is requested; with
no attachments the comprehension body never runs and the computation
succeeds. -/
def emailControllerPqcKeyLength (P : Primitives) (body : String)
    (attachments : List Attachment) (security_level : Nat) : Option Nat :=
  match attachments with
  | _ :: _ => none
  | [] =>
    let payload_size := (P.ser { body := body, attachments := [] }).length
    some (if security_level = 1 then payload_size else 32)

/-! ## Concrete stand-in primitives for evaluating the model

Small executable instances of the abstract primitives, satisfying the
contracts the theorems assume, so every theorem can be exercised on
concrete inputs. -/

def toyHash (s : Bytes) : Bytes := [(s.length + 1) % 256, 7]

def toyAeadEnc (k n p : Bytes) : Bytes × Bytes := (p, (p ++ k) ++ n)

def toyAeadDec (k n c t : Bytes) : Option Bytes :=
  if t = (c ++ k) ++ n then some c else none

def toyKemEnc (pk : Bytes) : Bytes × Bytes := (pk, List.replicate 32 9)

def toyKemDec (_ _ : Bytes) : Bytes := List.replicate 32 9

def toyKdf (s salt : Bytes) : Bytes := (s ++ salt).take 32

def toySer (p : Payload) : Bytes := strBytes p.body

def toyDeser (b : Bytes) : Option Payload :=
  some { body := strOfBytes b, attachments := [] }

def toyPrims : Primitives :=
  { hash := toyHash, aeadEnc := toyAeadEnc, aeadDec := toyAeadDec,
    kemEnc := toyKemEnc, kemDec := toyKemDec, kdf := toyKdf,
    ser := toySer, deser := toyDeser }

def store0 : QkdStore := fun _ => none

def rand0 : EncRandom :=
  { aes_key := List.replicate 32 0, nonce := List.replicate 12 1,
    salt := List.replicate 16 2, qkd_key_id := "qkd_k" }

theorem toyAead_correct (k n p : Bytes) :
    toyAeadDec k n (toyAeadEnc k n p).1 (toyAeadEnc k n p).2 = some p := by
  simp [toyAeadDec, toyAeadEnc]

theorem toyAead_sound (k n c t p : Bytes) :
    toyAeadDec k n c t = some p → toyAeadEnc k n p = (c, t) := by
  intro h
  unfold toyAeadDec at h
  split at h
  · rename_i ht
    obtain rfl : c = p := Option.some.inj h
    simp [toyAeadEnc, ht]
  · cases h

theorem toyAead_ct_inj (k n p q : Bytes) :
    (toyAeadEnc k n p).1 = (toyAeadEnc k n q).1 → p = q := by
  intro h
  simpa [toyAeadEnc] using h

theorem toyAead_tag_inj (k n p q : Bytes) :
    (toyAeadEnc k n p).2 = (toyAeadEnc k n q).2 → p = q := by
  intro h
  simp only [toyAeadEnc] at h
  exact List.append_cancel_right (List.append_cancel_right h)

/-! ## Claims -/

/-- Claim C3: `MockQKDClient.get_deterministic_key` is exactly the
hash-chain construction (seed = hash of the identifier, each successive
block the hash of the previous, concatenated and truncated to the
requested length), and it is a pure function of `(key_id, n)`: two calls
with identical arguments yield identical bytes. -/
theorem C3_derivation_is_hash_chain (H : Bytes → Bytes) :
    (∀ (key_id : String) (n : Nat),
      get_deterministic_key H key_id n = specHashChain H key_id n) ∧
    (∀ (k1 k2 : String) (n1 n2 : Nat), k1 = k2 → n1 = n2 →
      get_deterministic_key H k1 n1 = get_deterministic_key H k2 n2) := by
  constructor
  · intro key_id n
    rw [get_deterministic_key_eq_joinBlocks, specHashChain, joinBlocks_eq_range]
  · intro k1 k2 n1 n2 h1 h2
    rw [h1, h2]

theorem C3_derivation_is_hash_chain_witness :
    get_deterministic_key toyHash "a" 5 = specHashChain toyHash "a" 5 ∧
    ("a" : String) = "a" ∧ (5 : Nat) = 5 ∧
    get_deterministic_key toyHash "a" 5 = get_deterministic_key toyHash "a" 5 ∧
    get_deterministic_key toyHash "a" 5 = [3, 7, 3, 7, 3] :=
  ⟨(C3_derivation_is_hash_chain toyHash).1 "a" 5, rfl, rfl,
   (C3_derivation_is_hash_chain toyHash).2 "a" "a" 5 5 rfl rfl, by decide⟩

/-- Claim C9: for `m ≤ n`, the `m`-byte derivation for a key id is a
byte-prefix of the `n`-byte derivation, and the result always has
exactly the requested length (SHA-256 blocks are non-empty, which is the
`hH` hypothesis on the abstracted hash). -/
theorem C9_derivation_prefix_length (H : Bytes → Bytes) (key_id : String) (m n : Nat)
    (hH : ∀ s, H s ≠ []) (hmn : m ≤ n) :
    get_deterministic_key H key_id m <+: get_deterministic_key H key_id n ∧
    (get_deterministic_key H key_id n).length = n := by
  constructor
  · have h1 : get_deterministic_key H key_id m =
        (get_deterministic_key H key_id n).take m := by
      rw [get_deterministic_key_eq_joinBlocks, get_deterministic_key_eq_joinBlocks,
        List.take_take, Nat.min_eq_left hmn]
      obtain ⟨t, ht⟩ := joinBlocks_mono H n m (H (strBytes key_id)) hmn
      rw [← ht, List.take_append_of_le_length (joinBlocks_length_ge H hH m _)]
    rw [h1]
    exact ⟨_, List.take_append_drop m _⟩
  · rw [get_deterministic_key_eq_joinBlocks, List.length_take]
    exact Nat.min_eq_left (joinBlocks_length_ge H hH n _)

theorem C9_derivation_prefix_length_witness :
    (∀ s, toyHash s ≠ []) ∧ (3 : Nat) ≤ 5 ∧
    (get_deterministic_key toyHash "a" 3 <+: get_deterministic_key toyHash "a" 5 ∧
     (get_deterministic_key toyHash "a" 5).length = 5) ∧
    get_deterministic_key toyHash "a" 0 = [] :=
  ⟨fun s => by simp [toyHash], by decide,
   C9_derivation_prefix_length toyHash "a" 3 5 (fun s => by simp [toyHash]) (by decide),
   by decide⟩

/-- Claim C5: the first retrieval of a stored single-use symmetric key
returns the stored key and deletes the row, and a second retrieval with
the same `key_id` fails with the 404 not-found result. -/
theorem C5_single_use (store : KeyStore) (key_id key_hex : String) (store2 : KeyStore)
    (h : get_symmetric_key_by_id store key_id = (some key_hex, store2)) :
    dbSelect store key_id = some key_hex ∧
    get_symmetric_key_by_id store2 key_id = (none, store2) := by
  unfold get_symmetric_key_by_id at h
  cases hsel : dbSelect store key_id with
  | none => rw [hsel] at h; cases h
  | some v =>
    rw [hsel] at h
    have hv : some v = some key_hex := congrArg Prod.fst h
    have hs : dbDelete store key_id = store2 := congrArg Prod.snd h
    refine ⟨hv, ?_⟩
    unfold get_symmetric_key_by_id
    rw [← hs, dbSelect_dbDelete]

theorem C5_single_use_witness :
    get_symmetric_key_by_id [("id1", "aa"), ("id2", "bb")] "id1" =
      (some "aa", [("id2", "bb")]) ∧
    (dbSelect [("id1", "aa"), ("id2", "bb")] "id1" = some "aa" ∧
     get_symmetric_key_by_id [("id2", "bb")] "id1" = (none, [("id2", "bb")])) :=
  ⟨by decide, C5_single_use _ "id1" "aa" _ (by decide)⟩

/-- Claim C7: decrypting a level-3 envelope without a configured private
key fails with the missing-key-material `DecryptionError`, and the result
does not depend on the primitives or the key store at all — no KEM
decapsulation and no AEAD call is attempted. -/
theorem C7_missing_private_key (P : Primitives) (store : QkdStore) (env : Envelope)
    (ap : EncPayload) (args : DecArgs)
    (hlvl : env.security_level = 3) (hap : env.aes_payload = some ap)
    (hpk : args.private_key = none) :
    CryptoService.decrypt P store env args = .error .missingPrivateKey ∧
    (∀ (P2 : Primitives) (store2 : QkdStore),
      CryptoService.decrypt P2 store2 env args = CryptoService.decrypt P store env args) := by
  have hmain : ∀ (P2 : Primitives) (store2 : QkdStore),
      CryptoService.decrypt P2 store2 env args = .error .missingPrivateKey := by
    intro P2 store2
    simp [CryptoService.decrypt, hlvl, hap, hpk]
  exact ⟨hmain P store, fun P2 store2 => (hmain P2 store2).trans (hmain P store).symm⟩

def c7env : Envelope :=
  { security_level := 3, kem_ciphertext := some [4], encrypted_symmetric_key := some [5],
    aes_payload := some { ciphertext := some [1], nonce := some [2], auth_tag := some [3] } }

theorem C7_missing_private_key_witness :
    c7env.security_level = 3 ∧
    c7env.aes_payload =
      some { ciphertext := some [1], nonce := some [2], auth_tag := some [3] } ∧
    ({} : DecArgs).private_key = none ∧
    CryptoService.decrypt toyPrims store0 c7env {} = .error .missingPrivateKey :=
  ⟨rfl, rfl, rfl,
   (C7_missing_private_key toyPrims store0 c7env _ {} rfl rfl rfl).1⟩

/-- Claim C8, counterexample: the claim says a missing required field is
always a parse error with no silent default, and names the
`encryption_method` discriminator and the level-4 `plaintext_payload`
record as examples; but `decrypt` reads exactly these two fields with
`dict.get` defaults.  A level-4 envelope with no `plaintext_payload`
decrypts successfully to the empty payload, and a level-2 envelope with
no `encryption_method` is treated as method pqc (here failing on the
missing pqc kwarg, not with a parse error). -/
theorem C8_counterexample :
    CryptoService.decrypt toyPrims store0 { security_level := 4 } {} =
      .ok { body := "", attachments := [] } ∧
    CryptoService.decrypt toyPrims store0
      { security_level := 2, key_id := some "k",
        payload := some { ciphertext := some [1], nonce := some [2],
                          auth_tag := some [3], salt := some [4] } } {} =
      .error .kwargMissing ∧
    DecError.kwargMissing ≠ DecError.parseError :=
  ⟨rfl, rfl, by decide⟩

/-- Claim C8 (amended): for an envelope missing a required field,
parsing/decrypt treats the absence as a parse error — except for the two
fields read with silent defaults: a missing `encryption_method`
discriminator at levels 1-2 defaults to pqc, and a missing
`plaintext_payload` at level 4 defaults to the empty payload. -/
theorem C8_missing_fields (P : Primitives) (store : QkdStore) (args : DecArgs) :
    (∀ env : Envelope, env.encryption_method = none →
      CryptoService.decrypt P store env args =
        CryptoService.decrypt P store { env with encryption_method := some "pqc" } args) ∧
    (∀ env : Envelope, env.security_level = 4 → env.plaintext_payload = none →
      CryptoService.decrypt P store env args = .ok { body := "", attachments := [] }) ∧
    (∀ env : Envelope, env.security_level = 3 → env.aes_payload = none →
      CryptoService.decrypt P store env args = .error .parseError) ∧
    (∀ env : Envelope, env.security_level = 1 ∨ env.security_level = 2 →
      env.encryption_method = some "qkd" → env.key_id = none →
      CryptoService.decrypt P store env args = .error .parseError) := by
  refine ⟨?_, ?_, ?_, ?_⟩
  · intro env hm
    obtain ⟨lvl, pp, kct, esk, ap, em, kid, pl⟩ := env
    simp only at hm
    subst hm
    rfl
  · intro env h4 hpp
    simp [CryptoService.decrypt, h4, hpp]
  · intro env h3 hap
    simp [CryptoService.decrypt, h3, hap]
  · intro env hlvl hm hkid
    rcases hlvl with h | h <;> simp [CryptoService.decrypt, h, hm, hkid]

theorem C8_missing_fields_witness :
    (({ security_level := 2, key_id := some "k" } : Envelope).encryption_method = none ∧
     CryptoService.decrypt toyPrims store0 { security_level := 2, key_id := some "k" } {} =
       CryptoService.decrypt toyPrims store0
         { security_level := 2, key_id := some "k", encryption_method := some "pqc" } {}) ∧
    (CryptoService.decrypt toyPrims store0 { security_level := 4 } {} =
       .ok { body := "", attachments := [] }) ∧
    (CryptoService.decrypt toyPrims store0 { security_level := 3 } {} =
       .error .parseError) ∧
    (CryptoService.decrypt toyPrims store0
       { security_level := 2, encryption_method := some "qkd" } {} =
       .error .parseError) :=
  ⟨⟨rfl, (C8_missing_fields toyPrims store0 {}).1 _ rfl⟩,
   (C8_missing_fields toyPrims store0 {}).2.1 _ rfl rfl,
   (C8_missing_fields toyPrims store0 {}).2.2.1 _ rfl rfl,
   (C8_missing_fields toyPrims store0 {}).2.2.2 _ (Or.inr rfl) rfl rfl⟩

/-- Length of the ciphertext carried in an envelope's `payload` field. -/
def envCtLen (e : Envelope) : Option Nat :=
  (e.payload.bind EncPayload.ciphertext).map List.length

/-- Claim C10: a successful level-1 encryption (either method) produces
an OTP ciphertext of exactly the serialized payload's length. -/
theorem C10_otp_ciphertext_length (P : Primitives) (store : QkdStore) (rand : EncRandom)
    (body : String) (atts : List Attachment) :
    (∀ (re : String) (out : EncOut),
      (CryptoService.encrypt P store rand body atts
        { security_level := 1, encryption_method := some "qkd",
          recipient_email := some re }).2 = .ok out →
      envCtLen out.env = some (P.ser { body := body, attachments := atts }).length) ∧
    (∀ (key : Bytes) (kid : String) (out : EncOut),
      (CryptoService.encrypt P store rand body atts
        { security_level := 1, key_hex := some key, key_id := some kid }).2 = .ok out →
      envCtLen out.env = some (P.ser { body := body, attachments := atts }).length) := by
  constructor
  · intro re out h
    simp only [CryptoService.encrypt, get_quantum_key] at h
    norm_num at h
    split at h
    · cases h
    · rename_i hguard
      obtain rfl : _ = out := Except.ok.inj h
      simp [envCtLen, zipXor_length, Nat.min_eq_left (Nat.le_of_not_lt hguard)]
  · intro key kid out h
    simp only [CryptoService.encrypt] at h
    norm_num at h
    rw [if_neg (by decide : ¬("pqc" = "qkd"))] at h
    dsimp only at h
    split at h
    · cases h
    · rename_i hguard
      obtain rfl : _ = out := Except.ok.inj h
      simp [envCtLen, zipXor_length, Nat.min_eq_left (Nat.le_of_not_lt hguard)]

def c10qkdOut : EncOut :=
  { env := { security_level := 1, encryption_method := some "qkd",
             key_id := some "qkd_k",
             payload := some { ciphertext := some [107, 110] } },
    qkd_request := some 2 }

def c10pqcOut : EncOut :=
  { env := { security_level := 1, encryption_method := some "pqc",
             key_id := some "id",
             payload := some { ciphertext := some [105, 107] } } }

theorem C10_otp_ciphertext_length_witness :
    ((CryptoService.encrypt toyPrims store0 rand0 "hi" []
        { security_level := 1, encryption_method := some "qkd",
          recipient_email := some "r" }).2 = .ok c10qkdOut ∧
     envCtLen c10qkdOut.env = some 2) ∧
    ((CryptoService.encrypt toyPrims store0 rand0 "hi" []
        { security_level := 1, key_hex := some [1, 2, 3], key_id := some "id" }).2 =
      .ok c10pqcOut ∧
     envCtLen c10pqcOut.env = some 2) :=
  ⟨⟨rfl,
    (C10_otp_ciphertext_length toyPrims store0 rand0 "hi" []).1 "r" c10qkdOut rfl⟩,
   ⟨rfl,
    (C10_otp_ciphertext_length toyPrims store0 rand0 "hi" []).2 [1, 2, 3] "id" c10pqcOut rfl⟩⟩

/-- Claim C4: the claim holds as stated for the qkd branch — the
request, made inside `CryptoService.encrypt`, is for exactly the
serialized payload's length `L` (hence ≥ L) — and the short-key guards
of both branches fail with `EncryptionError` before any masking, the
error result carrying no ciphertext.  But the pqc request is issued by
the calling `EmailController`, which crashes with `NameError` on every
payload with a non-empty attachment list (`base64` is never imported in
email_controller.py), so there no key of any size is requested; only
with no attachments does the caller compute and request exactly `L`.
The claim is right about the intended behaviour and the code is wrong
on that path. -/
theorem C4_otp_key_request (P : Primitives) (store : QkdStore) (rand : EncRandom)
    (body : String) (atts : List Attachment) :
    (∀ (re : String) (out : EncOut),
      (CryptoService.encrypt P store rand body atts
        { security_level := 1, encryption_method := some "qkd",
          recipient_email := some re }).2 = .ok out →
      out.qkd_request = some (P.ser { body := body, attachments := atts }).length) ∧
    (∀ re : String,
      (get_deterministic_key P.hash rand.qkd_key_id
          (P.ser { body := body, attachments := atts }).length).length <
        (P.ser { body := body, attachments := atts }).length →
      (CryptoService.encrypt P store rand body atts
        { security_level := 1, encryption_method := some "qkd",
          recipient_email := some re }).2 = .error .otpKeyShort) ∧
    (emailControllerPqcKeyLength P body [] 1 =
      some (P.ser { body := body, attachments := [] }).length) ∧
    (∀ (a : Attachment) (rest : List Attachment),
      emailControllerPqcKeyLength P body (a :: rest) 1 = none) ∧
    (∀ (key : Bytes) (kid : String),
      key.length < (P.ser { body := body, attachments := atts }).length →
      (CryptoService.encrypt P store rand body atts
        { security_level := 1, key_hex := some key, key_id := some kid }).2 =
        .error .otpKeyShort) := by
  refine ⟨?_, ?_, ?_, ?_, ?_⟩
  · intro re out h
    simp only [CryptoService.encrypt] at h
    norm_num at h
    split at h
    · cases h
    · obtain rfl : _ = out := Except.ok.inj h
      rfl
  · intro re hshort
    simp [CryptoService.encrypt, get_quantum_key, hshort]
  · simp [emailControllerPqcKeyLength]
  · intro a rest
    rfl
  · intro key kid hshort
    simp [CryptoService.encrypt, hshort]

def toyPrimsNilHash : Primitives := { toyPrims with hash := fun _ => [] }

theorem C4_otp_key_request_witness :
    ((CryptoService.encrypt toyPrims store0 rand0 "hi" []
        { security_level := 1, encryption_method := some "qkd",
          recipient_email := some "r" }).2 = .ok c10qkdOut ∧
     c10qkdOut.qkd_request = some 2) ∧
    ((get_deterministic_key (fun _ => []) "qkd_k" 2).length < 2 ∧
     (CryptoService.encrypt toyPrimsNilHash store0 rand0 "hi" []
        { security_level := 1, encryption_method := some "qkd",
          recipient_email := some "r" }).2 = .error .otpKeyShort) ∧
    emailControllerPqcKeyLength toyPrims "hi" [] 1 = some 2 ∧
    emailControllerPqcKeyLength toyPrims "hi"
      [{ filename := "a.txt", content := [120] }] 1 = none ∧
    (([1] : Bytes).length < 2 ∧
     (CryptoService.encrypt toyPrims store0 rand0 "hi" []
        { security_level := 1, key_hex := some [1], key_id := some "id" }).2 =
       .error .otpKeyShort) :=
  ⟨⟨rfl,
    (C4_otp_key_request toyPrims store0 rand0 "hi" []).1 "r" c10qkdOut rfl⟩,
   ⟨by decide,
    (C4_otp_key_request toyPrimsNilHash store0 rand0 "hi" []).2.1 "r" (by decide)⟩,
   (C4_otp_key_request toyPrims store0 rand0 "hi" []).2.2.1,
   (C4_otp_key_request toyPrims store0 rand0 "hi" []).2.2.2.1
     { filename := "a.txt", content := [120] } [],
   ⟨by decide,
    (C4_otp_key_request toyPrims store0 rand0 "hi" []).2.2.2.2 [1] "id" (by decide)⟩⟩

/-- The `key_length_bytes` passed to `get_quantum_key` by an encrypt
call, when its qkd branch ran. -/
def encResultRequest (r : Except EncError EncOut) : Option Nat :=
  match r with
  | .ok o => o.qkd_request
  | .error _ => none

/-- Claim C6, counterexample: the claim says level-2 qkd encryption
requests a 32-byte quantum key, but `encrypt` passes
`len(plaintext_payload_bytes)` for every level-1/2 qkd call: with the
5-byte payload "hello", the requested key length is 5, not 32. -/
theorem C6_counterexample :
    encResultRequest (CryptoService.encrypt toyPrims store0 rand0 "hello" []
      { security_level := 2, encryption_method := some "qkd",
        recipient_email := some "r" }).2 = some 5 ∧ (5 : Nat) ≠ 32 :=
  ⟨rfl, by decide⟩

/-- Claim C6 (amended): level-2 qkd encryption requests a quantum key of
length equal to the serialized payload (not 32 bytes), derives the AEAD
key from it via the KDF with the freshly random salt, AEAD-encrypts, and
emits an envelope carrying `key_id`, salt, nonce, auth tag, and
ciphertext. -/
theorem C6_level2_qkd_shape (P : Primitives) (store : QkdStore) (rand : EncRandom)
    (body : String) (atts : List Attachment) (re : String) (out : EncOut)
    (h : (CryptoService.encrypt P store rand body atts
      { security_level := 2, encryption_method := some "qkd",
        recipient_email := some re }).2 = .ok out) :
    out.qkd_request = some (P.ser { body := body, attachments := atts }).length ∧
    out.env =
      { security_level := 2, encryption_method := some "qkd",
        key_id := some rand.qkd_key_id,
        payload := some
          { ciphertext := some (P.aeadEnc
              (P.kdf (get_deterministic_key P.hash rand.qkd_key_id
                (P.ser { body := body, attachments := atts }).length) rand.salt)
              rand.nonce (P.ser { body := body, attachments := atts })).1,
            nonce := some rand.nonce,
            auth_tag := some (P.aeadEnc
              (P.kdf (get_deterministic_key P.hash rand.qkd_key_id
                (P.ser { body := body, attachments := atts }).length) rand.salt)
              rand.nonce (P.ser { body := body, attachments := atts })).2,
            salt := some rand.salt } } := by
  simp only [CryptoService.encrypt, get_quantum_key] at h
  norm_num at h
  subst h
  exact ⟨rfl, rfl⟩

def c6Out : EncOut :=
  { env := { security_level := 2, encryption_method := some "qkd",
             key_id := some "qkd_k",
             payload := some
               { ciphertext := some [],
                 nonce := some (List.replicate 12 1),
                 auth_tag := some (List.replicate 16 2 ++ List.replicate 12 1),
                 salt := some (List.replicate 16 2) } },
    qkd_request := some 0 }

theorem C6_level2_qkd_shape_witness :
    (CryptoService.encrypt toyPrims store0 rand0 "" []
      { security_level := 2, encryption_method := some "qkd",
        recipient_email := some "r" }).2 = .ok c6Out ∧
    (c6Out.qkd_request = some (toyPrims.ser { body := "", attachments := [] }).length ∧
     c6Out.env =
      { security_level := 2, encryption_method := some "qkd",
        key_id := some rand0.qkd_key_id,
        payload := some
          { ciphertext := some (toyPrims.aeadEnc
              (toyPrims.kdf (get_deterministic_key toyPrims.hash rand0.qkd_key_id
                (toyPrims.ser { body := "", attachments := [] }).length) rand0.salt)
              rand0.nonce (toyPrims.ser { body := "", attachments := [] })).1,
            nonce := some rand0.nonce,
            auth_tag := some (toyPrims.aeadEnc
              (toyPrims.kdf (get_deterministic_key toyPrims.hash rand0.qkd_key_id
                (toyPrims.ser { body := "", attachments := [] }).length) rand0.salt)
              rand0.nonce (toyPrims.ser { body := "", attachments := [] })).2,
            salt := some rand0.salt } }) :=
  ⟨rfl, C6_level2_qkd_shape toyPrims store0 rand0 "" [] "r" c6Out rfl⟩

/-- Claim C1: for every security level in 1-4 and both encryption
methods, decrypting the envelope produced by `CryptoService.encrypt`
with the matching key material re-acquired via the identifiers embedded
in the envelope — the same `key_hex` for pqc levels 1-2, the matching
private key for level 3, deterministic re-derivation through the
updated QKD store for qkd — returns the payload that was encrypted:
same body string, same attachment filenames and contents.  The
hypotheses are the library contracts: JSON round-trips on this payload,
AES-GCM decryption inverts encryption, and for level 3 the KEM private
key matches and the shared secret has the AES key's length (32 for
Kyber-512). -/
theorem C1_roundtrip (P : Primitives) (store : QkdStore) (rand : EncRandom)
    (body : String) (atts : List Attachment)
    (hser : P.deser (P.ser { body := body, attachments := atts }) =
      some { body := body, attachments := atts })
    (haead : ∀ k n p, P.aeadDec k n (P.aeadEnc k n p).1 (P.aeadEnc k n p).2 = some p) :
    (∀ out : EncOut,
      (CryptoService.encrypt P store rand body atts { security_level := 4 }).2 = .ok out →
      CryptoService.decrypt P store out.env {} =
        .ok { body := body, attachments := atts }) ∧
    (∀ (pk sk : Bytes) (out : EncOut),
      P.kemDec (P.kemEnc pk).1 sk = (P.kemEnc pk).2 →
      rand.aes_key.length = (P.kemEnc pk).2.length →
      (CryptoService.encrypt P store rand body atts
        { security_level := 3, recipient_public_key := some pk }).2 = .ok out →
      CryptoService.decrypt P store out.env { private_key := some sk } =
        .ok { body := body, attachments := atts }) ∧
    (∀ (re : String) (out : EncOut),
      (CryptoService.encrypt P store rand body atts
        { security_level := 2, encryption_method := some "qkd",
          recipient_email := some re }).2 = .ok out →
      CryptoService.decrypt P
        (CryptoService.encrypt P store rand body atts
          { security_level := 2, encryption_method := some "qkd",
            recipient_email := some re }).1 out.env {} =
        .ok { body := body, attachments := atts }) ∧
    (∀ (re : String) (out : EncOut),
      (CryptoService.encrypt P store rand body atts
        { security_level := 1, encryption_method := some "qkd",
          recipient_email := some re }).2 = .ok out →
      CryptoService.decrypt P
        (CryptoService.encrypt P store rand body atts
          { security_level := 1, encryption_method := some "qkd",
            recipient_email := some re }).1 out.env {} =
        .ok { body := body, attachments := atts }) ∧
    (∀ (key : Bytes) (kid : String) (out : EncOut),
      (CryptoService.encrypt P store rand body atts
        { security_level := 2, key_hex := some key, key_id := some kid }).2 = .ok out →
      CryptoService.decrypt P store out.env { key_hex := some key } =
        .ok { body := body, attachments := atts }) ∧
    (∀ (key : Bytes) (kid : String) (out : EncOut),
      (CryptoService.encrypt P store rand body atts
        { security_level := 1, key_hex := some key, key_id := some kid }).2 = .ok out →
      CryptoService.decrypt P store out.env { key_hex := some key } =
        .ok { body := body, attachments := atts }) := by
  refine ⟨?_, ?_, ?_, ?_, ?_, ?_⟩
  · -- level 4
    intro out h
    simp only [CryptoService.encrypt] at h
    norm_num at h
    subst h
    simp [CryptoService.decrypt]
  · -- level 3
    intro pk sk out hkem hlen h
    simp only [CryptoService.encrypt] at h
    norm_num at h
    subst h
    simp [CryptoService.decrypt, deserFinish, hkem, zipXor_zipXor, ← hlen,
      ljust_of_length_eq, List.take_length, haead, hser]
  · -- level 2 qkd
    intro re out h
    simp only [CryptoService.encrypt, get_quantum_key] at h
    norm_num at h
    subst h
    simp only [CryptoService.encrypt, get_quantum_key]
    norm_num
    simp [CryptoService.decrypt, get_quantum_key_by_id, deserFinish, haead, hser]
  · -- level 1 qkd
    intro re out h
    simp only [CryptoService.encrypt, get_quantum_key] at h
    norm_num at h
    split at h
    · cases h
    · rename_i hguard
      obtain rfl : _ = out := Except.ok.inj h
      have hge := Nat.le_of_not_lt hguard
      simp only [CryptoService.encrypt, get_quantum_key]
      norm_num
      simp [CryptoService.decrypt, get_quantum_key_by_id, deserFinish, zipXor_length,
        Nat.min_eq_left hge, hguard, zipXor_zipXor, List.take_of_length_le hge, hser]
  · -- level 2 pqc
    intro key kid out h
    simp only [CryptoService.encrypt] at h
    norm_num at h
    rw [if_neg (by decide : ¬("pqc" = "qkd"))] at h
    dsimp only at h
    norm_num at h
    subst h
    simp [CryptoService.decrypt, deserFinish, haead, hser]
  · -- level 1 pqc
    intro key kid out h
    simp only [CryptoService.encrypt] at h
    norm_num at h
    rw [if_neg (by decide : ¬("pqc" = "qkd"))] at h
    dsimp only at h
    split at h
    · cases h
    · rename_i hguard
      obtain rfl : _ = out := Except.ok.inj h
      have hge := Nat.le_of_not_lt hguard
      simp [CryptoService.decrypt, deserFinish, zipXor_length,
        Nat.min_eq_left hge, hguard, zipXor_zipXor, List.take_of_length_le hge, hser]

def c1p0 : Payload := { body := "", attachments := [] }

def c1out4 : EncOut :=
  { env := { security_level := 4, plaintext_payload := some c1p0 } }

def c1out3 : EncOut :=
  { env := { security_level := 3, kem_ciphertext := some [5],
             encrypted_symmetric_key := some (List.replicate 32 9),
             aes_payload := some
               { ciphertext := some [],
                 nonce := some (List.replicate 12 1),
                 auth_tag := some (List.replicate 32 0 ++ List.replicate 12 1) } } }

def c1out1q : EncOut :=
  { env := { security_level := 1, encryption_method := some "qkd",
             key_id := some "qkd_k",
             payload := some { ciphertext := some [] } },
    qkd_request := some 0 }

def c1out2p : EncOut :=
  { env := { security_level := 2, encryption_method := some "pqc",
             key_id := some "id",
             payload := some
               { ciphertext := some [],
                 nonce := some (List.replicate 12 1),
                 auth_tag := some ([3, 4] ++ List.replicate 12 1) } } }

def c1out1p : EncOut :=
  { env := { security_level := 1, encryption_method := some "pqc",
             key_id := some "id",
             payload := some { ciphertext := some [] } } }

theorem C1_roundtrip_witness :
    ((CryptoService.encrypt toyPrims store0 rand0 "" []
        { security_level := 4 }).2 = .ok c1out4 ∧
     CryptoService.decrypt toyPrims store0 c1out4.env {} = .ok c1p0) ∧
    (toyPrims.kemDec (toyPrims.kemEnc [5]).1 [6] = (toyPrims.kemEnc [5]).2 ∧
     rand0.aes_key.length = (toyPrims.kemEnc [5]).2.length ∧
     (CryptoService.encrypt toyPrims store0 rand0 "" []
        { security_level := 3, recipient_public_key := some [5] }).2 = .ok c1out3 ∧
     CryptoService.decrypt toyPrims store0 c1out3.env { private_key := some [6] } =
       .ok c1p0) ∧
    ((CryptoService.encrypt toyPrims store0 rand0 "" []
        { security_level := 2, encryption_method := some "qkd",
          recipient_email := some "r" }).2 = .ok c6Out ∧
     CryptoService.decrypt toyPrims
       (CryptoService.encrypt toyPrims store0 rand0 "" []
          { security_level := 2, encryption_method := some "qkd",
            recipient_email := some "r" }).1 c6Out.env {} = .ok c1p0) ∧
    ((CryptoService.encrypt toyPrims store0 rand0 "" []
        { security_level := 1, encryption_method := some "qkd",
          recipient_email := some "r" }).2 = .ok c1out1q ∧
     CryptoService.decrypt toyPrims
       (CryptoService.encrypt toyPrims store0 rand0 "" []
          { security_level := 1, encryption_method := some "qkd",
            recipient_email := some "r" }).1 c1out1q.env {} = .ok c1p0) ∧
    ((CryptoService.encrypt toyPrims store0 rand0 "" []
        { security_level := 2, key_hex := some [3, 4], key_id := some "id" }).2 =
      .ok c1out2p ∧
     CryptoService.decrypt toyPrims store0 c1out2p.env { key_hex := some [3, 4] } =
       .ok c1p0) ∧
    ((CryptoService.encrypt toyPrims store0 rand0 "" []
        { security_level := 1, key_hex := some [3], key_id := some "id" }).2 =
      .ok c1out1p ∧
     CryptoService.decrypt toyPrims store0 c1out1p.env { key_hex := some [3] } =
       .ok c1p0) :=
  ⟨⟨rfl, (C1_roundtrip toyPrims store0 rand0 "" [] rfl toyAead_correct).1 c1out4 rfl⟩,
   ⟨rfl, rfl, rfl,
    (C1_roundtrip toyPrims store0 rand0 "" [] rfl toyAead_correct).2.1
      [5] [6] c1out3 rfl rfl rfl⟩,
   ⟨rfl, (C1_roundtrip toyPrims store0 rand0 "" [] rfl toyAead_correct).2.2.1
      "r" c6Out rfl⟩,
   ⟨rfl, (C1_roundtrip toyPrims store0 rand0 "" [] rfl toyAead_correct).2.2.2.1
      "r" c1out1q rfl⟩,
   ⟨rfl, (C1_roundtrip toyPrims store0 rand0 "" [] rfl toyAead_correct).2.2.2.2.1
      [3, 4] "id" c1out2p rfl⟩,
   ⟨rfl, (C1_roundtrip toyPrims store0 rand0 "" [] rfl toyAead_correct).2.2.2.2.2
      [3] "id" c1out1p rfl⟩⟩

/-- Claim C2: for level-2 (either method) and level-3 envelopes produced
by `encrypt`, replacing the ciphertext or the authentication tag with
any different value — in particular flipping any single bit of either —
makes `decrypt` fail with the tamper `DecryptionError`; the error result
carries no plaintext, so nothing modified or partial is released.  The
hypotheses model ideal authenticated encryption: a successful
`aead_decrypt` implies the pair was produced by `aead_encrypt` under the
same key and nonce, and for a fixed key and nonce both the ciphertext
and the tag determine the plaintext. -/
theorem C2_tamper_detection (P : Primitives) (store : QkdStore) (rand : EncRandom)
    (body : String) (atts : List Attachment)
    (hsound : ∀ k n c t p, P.aeadDec k n c t = some p → P.aeadEnc k n p = (c, t))
    (hctinj : ∀ k n p q, (P.aeadEnc k n p).1 = (P.aeadEnc k n q).1 → p = q)
    (htaginj : ∀ k n p q, (P.aeadEnc k n p).2 = (P.aeadEnc k n q).2 → p = q) :
    (∀ (re : String) (out : EncOut) (ep : EncPayload) (ct0 tag0 : Bytes),
      (CryptoService.encrypt P store rand body atts
        { security_level := 2, encryption_method := some "qkd",
          recipient_email := some re }).2 = .ok out →
      out.env.payload = some ep → ep.ciphertext = some ct0 → ep.auth_tag = some tag0 →
      (∀ ct2, ct2 ≠ ct0 →
        CryptoService.decrypt P
          (CryptoService.encrypt P store rand body atts
            { security_level := 2, encryption_method := some "qkd",
              recipient_email := some re }).1
          { out.env with payload := some { ep with ciphertext := some ct2 } } {} =
          .error .tamper) ∧
      (∀ tag2, tag2 ≠ tag0 →
        CryptoService.decrypt P
          (CryptoService.encrypt P store rand body atts
            { security_level := 2, encryption_method := some "qkd",
              recipient_email := some re }).1
          { out.env with payload := some { ep with auth_tag := some tag2 } } {} =
          .error .tamper)) ∧
    (∀ (key : Bytes) (kid : String) (out : EncOut) (ep : EncPayload) (ct0 tag0 : Bytes),
      (CryptoService.encrypt P store rand body atts
        { security_level := 2, key_hex := some key, key_id := some kid }).2 = .ok out →
      out.env.payload = some ep → ep.ciphertext = some ct0 → ep.auth_tag = some tag0 →
      (∀ ct2, ct2 ≠ ct0 →
        CryptoService.decrypt P store
          { out.env with payload := some { ep with ciphertext := some ct2 } }
          { key_hex := some key } = .error .tamper) ∧
      (∀ tag2, tag2 ≠ tag0 →
        CryptoService.decrypt P store
          { out.env with payload := some { ep with auth_tag := some tag2 } }
          { key_hex := some key } = .error .tamper)) ∧
    (∀ (pk sk : Bytes) (out : EncOut) (ap : EncPayload) (ct0 tag0 : Bytes),
      P.kemDec (P.kemEnc pk).1 sk = (P.kemEnc pk).2 →
      rand.aes_key.length = (P.kemEnc pk).2.length →
      (CryptoService.encrypt P store rand body atts
        { security_level := 3, recipient_public_key := some pk }).2 = .ok out →
      out.env.aes_payload = some ap → ap.ciphertext = some ct0 → ap.auth_tag = some tag0 →
      (∀ ct2, ct2 ≠ ct0 →
        CryptoService.decrypt P store
          { out.env with aes_payload := some { ap with ciphertext := some ct2 } }
          { private_key := some sk } = .error .tamper) ∧
      (∀ tag2, tag2 ≠ tag0 →
        CryptoService.decrypt P store
          { out.env with aes_payload := some { ap with auth_tag := some tag2 } }
          { private_key := some sk } = .error .tamper)) := by
  refine ⟨?_, ?_, ?_⟩
  · -- level 2 qkd
    intro re out ep ct0 tag0 h hep hct htag
    simp only [CryptoService.encrypt, get_quantum_key] at h
    norm_num at h
    subst h
    simp only at hep
    obtain rfl := Option.some.inj hep
    simp only at hct htag
    obtain rfl := Option.some.inj hct
    obtain rfl := Option.some.inj htag
    constructor
    · intro ct2 hne
      have hdec : P.aeadDec
          (P.kdf (get_deterministic_key P.hash rand.qkd_key_id
            (P.ser { body := body, attachments := atts }).length) rand.salt)
          rand.nonce ct2
          (P.aeadEnc (P.kdf (get_deterministic_key P.hash rand.qkd_key_id
            (P.ser { body := body, attachments := atts }).length) rand.salt)
            rand.nonce (P.ser { body := body, attachments := atts })).2 = none := by
        cases hd : P.aeadDec _ _ ct2 _ with
        | none => rfl
        | some p =>
          exfalso
          have he := hsound _ _ _ _ _ hd
          have hp : p = P.ser { body := body, attachments := atts } :=
            htaginj _ _ _ _ (by rw [he])
          subst hp
          exact hne (congrArg Prod.fst he).symm
      simp only [CryptoService.encrypt, get_quantum_key]
      norm_num
      simp [CryptoService.decrypt, get_quantum_key_by_id, hdec]
    · intro tag2 hne
      have hdec : P.aeadDec
          (P.kdf (get_deterministic_key P.hash rand.qkd_key_id
            (P.ser { body := body, attachments := atts }).length) rand.salt)
          rand.nonce
          (P.aeadEnc (P.kdf (get_deterministic_key P.hash rand.qkd_key_id
            (P.ser { body := body, attachments := atts }).length) rand.salt)
            rand.nonce (P.ser { body := body, attachments := atts })).1
          tag2 = none := by
        cases hd : P.aeadDec _ _ _ tag2 with
        | none => rfl
        | some p =>
          exfalso
          have he := hsound _ _ _ _ _ hd
          have hp : p = P.ser { body := body, attachments := atts } :=
            hctinj _ _ _ _ (by rw [he])
          subst hp
          exact hne (congrArg Prod.snd he).symm
      simp only [CryptoService.encrypt, get_quantum_key]
      norm_num
      simp [CryptoService.decrypt, get_quantum_key_by_id, hdec]
  · -- level 2 pqc
    intro key kid out ep ct0 tag0 h hep hct htag
    simp only [CryptoService.encrypt] at h
    norm_num at h
    rw [if_neg (by decide : ¬("pqc" = "qkd"))] at h
    dsimp only at h
    norm_num at h
    subst h
    simp only at hep
    obtain rfl := Option.some.inj hep
    simp only at hct htag
    obtain rfl := Option.some.inj hct
    obtain rfl := Option.some.inj htag
    constructor
    · intro ct2 hne
      have hdec : P.aeadDec (key.take 32) rand.nonce ct2
          (P.aeadEnc (key.take 32) rand.nonce
            (P.ser { body := body, attachments := atts })).2 = none := by
        cases hd : P.aeadDec _ _ ct2 _ with
        | none => rfl
        | some p =>
          exfalso
          have he := hsound _ _ _ _ _ hd
          have hp : p = P.ser { body := body, attachments := atts } :=
            htaginj _ _ _ _ (by rw [he])
          subst hp
          exact hne (congrArg Prod.fst he).symm
      simp [CryptoService.decrypt, hdec]
    · intro tag2 hne
      have hdec : P.aeadDec (key.take 32) rand.nonce
          (P.aeadEnc (key.take 32) rand.nonce
            (P.ser { body := body, attachments := atts })).1 tag2 = none := by
        cases hd : P.aeadDec _ _ _ tag2 with
        | none => rfl
        | some p =>
          exfalso
          have he := hsound _ _ _ _ _ hd
          have hp : p = P.ser { body := body, attachments := atts } :=
            hctinj _ _ _ _ (by rw [he])
          subst hp
          exact hne (congrArg Prod.snd he).symm
      simp [CryptoService.decrypt, hdec]
  · -- level 3
    intro pk sk out ap ct0 tag0 hkem hlen h hap hct htag
    simp only [CryptoService.encrypt] at h
    norm_num at h
    subst h
    simp only at hap
    obtain rfl := Option.some.inj hap
    simp only at hct htag
    obtain rfl := Option.some.inj hct
    obtain rfl := Option.some.inj htag
    constructor
    · intro ct2 hne
      have hdec : P.aeadDec rand.aes_key rand.nonce ct2
          (P.aeadEnc rand.aes_key rand.nonce
            (P.ser { body := body, attachments := atts })).2 = none := by
        cases hd : P.aeadDec _ _ ct2 _ with
        | none => rfl
        | some p =>
          exfalso
          have he := hsound _ _ _ _ _ hd
          have hp : p = P.ser { body := body, attachments := atts } :=
            htaginj _ _ _ _ (by rw [he])
          subst hp
          exact hne (congrArg Prod.fst he).symm
      simp [CryptoService.decrypt, hkem, zipXor_zipXor, ← hlen,
        ljust_of_length_eq, List.take_length, hdec]
    · intro tag2 hne
      have hdec : P.aeadDec rand.aes_key rand.nonce
          (P.aeadEnc rand.aes_key rand.nonce
            (P.ser { body := body, attachments := atts })).1 tag2 = none := by
        cases hd : P.aeadDec _ _ _ tag2 with
        | none => rfl
        | some p =>
          exfalso
          have he := hsound _ _ _ _ _ hd
          have hp : p = P.ser { body := body, attachments := atts } :=
            hctinj _ _ _ _ (by rw [he])
          subst hp
          exact hne (congrArg Prod.snd he).symm
      simp [CryptoService.decrypt, hkem, zipXor_zipXor, ← hlen,
        ljust_of_length_eq, List.take_length, hdec]

def c2qkdEp : EncPayload :=
  { ciphertext := some [], nonce := some (List.replicate 12 1),
    auth_tag := some (List.replicate 16 2 ++ List.replicate 12 1),
    salt := some (List.replicate 16 2) }

def c2pqcEp : EncPayload :=
  { ciphertext := some [], nonce := some (List.replicate 12 1),
    auth_tag := some ([3, 4] ++ List.replicate 12 1) }

def c2kemAp : EncPayload :=
  { ciphertext := some [], nonce := some (List.replicate 12 1),
    auth_tag := some (List.replicate 32 0 ++ List.replicate 12 1) }

theorem C2_tamper_detection_witness :
    (([0] : Bytes) ≠ [] ∧
     CryptoService.decrypt toyPrims
       (CryptoService.encrypt toyPrims store0 rand0 "" []
          { security_level := 2, encryption_method := some "qkd",
            recipient_email := some "r" }).1
       { c6Out.env with payload := some { c2qkdEp with ciphertext := some [0] } } {} =
       .error .tamper) ∧
    (([] : Bytes) ≠ List.replicate 16 2 ++ List.replicate 12 1 ∧
     CryptoService.decrypt toyPrims
       (CryptoService.encrypt toyPrims store0 rand0 "" []
          { security_level := 2, encryption_method := some "qkd",
            recipient_email := some "r" }).1
       { c6Out.env with payload := some { c2qkdEp with auth_tag := some [] } } {} =
       .error .tamper) ∧
    (([0] : Bytes) ≠ [] ∧
     CryptoService.decrypt toyPrims store0
       { c1out2p.env with payload := some { c2pqcEp with ciphertext := some [0] } }
       { key_hex := some [3, 4] } = .error .tamper) ∧
    (([] : Bytes) ≠ [3, 4] ++ List.replicate 12 1 ∧
     CryptoService.decrypt toyPrims store0
       { c1out2p.env with payload := some { c2pqcEp with auth_tag := some [] } }
       { key_hex := some [3, 4] } = .error .tamper) ∧
    (([0] : Bytes) ≠ [] ∧
     CryptoService.decrypt toyPrims store0
       { c1out3.env with aes_payload := some { c2kemAp with ciphertext := some [0] } }
       { private_key := some [6] } = .error .tamper) ∧
    (([] : Bytes) ≠ List.replicate 32 0 ++ List.replicate 12 1 ∧
     CryptoService.decrypt toyPrims store0
       { c1out3.env with aes_payload := some { c2kemAp with auth_tag := some [] } }
       { private_key := some [6] } = .error .tamper) :=
  ⟨⟨by decide,
    ((C2_tamper_detection toyPrims store0 rand0 "" []
        toyAead_sound toyAead_ct_inj toyAead_tag_inj).1 "r" c6Out c2qkdEp
      [] (List.replicate 16 2 ++ List.replicate 12 1) rfl rfl rfl rfl).1
      [0] (by decide)⟩,
   ⟨by decide,
    ((C2_tamper_detection toyPrims store0 rand0 "" []
        toyAead_sound toyAead_ct_inj toyAead_tag_inj).1 "r" c6Out c2qkdEp
      [] (List.replicate 16 2 ++ List.replicate 12 1) rfl rfl rfl rfl).2
      [] (by decide)⟩,
   ⟨by decide,
    ((C2_tamper_detection toyPrims store0 rand0 "" []
        toyAead_sound toyAead_ct_inj toyAead_tag_inj).2.1 [3, 4] "id" c1out2p c2pqcEp
      [] ([3, 4] ++ List.replicate 12 1) rfl rfl rfl rfl).1 [0] (by decide)⟩,
   ⟨by decide,
    ((C2_tamper_detection toyPrims store0 rand0 "" []
        toyAead_sound toyAead_ct_inj toyAead_tag_inj).2.1 [3, 4] "id" c1out2p c2pqcEp
      [] ([3, 4] ++ List.replicate 12 1) rfl rfl rfl rfl).2 [] (by decide)⟩,
   ⟨by decide,
    ((C2_tamper_detection toyPrims store0 rand0 "" []
        toyAead_sound toyAead_ct_inj toyAead_tag_inj).2.2 [5] [6] c1out3 c2kemAp
      [] (List.replicate 32 0 ++ List.replicate 12 1) rfl rfl rfl rfl rfl rfl).1
      [0] (by decide)⟩,
   ⟨by decide,
    ((C2_tamper_detection toyPrims store0 rand0 "" []
        toyAead_sound toyAead_ct_inj toyAead_tag_inj).2.2 [5] [6] c1out3 c2kemAp
      [] (List.replicate 32 0 ++ List.replicate 12 1) rfl rfl rfl rfl rfl rfl).2
      [] (by decide)⟩⟩

end QuMail
